import Mathlib

/-!
Verification of the semantic indexing and companion-discovery core of the
vast-fair-stack repository, as a shallow embedding in Lean 4.

Conventions of the embedding:
* Python dicts with string keys and string values become association lists
  (first binding wins on lookup, as in a dict that never rebinds in place);
  `metaSet` models in-place key assignment.
* Embedding vectors are lists of rationals.  `faiss.normalize_L2` rescales a
  row to unit L2 norm in float32; the embedding collaborator already supplies
  unit-norm vectors (spec section 6), for which exact normalization is the
  identity, so `normalizeL2` is the identity map here (an exact square-root
  rescaling is not representable over the rationals).
* The FAISS `IndexFlatIP.search` call is modelled exactly on rationals:
  score every stored row by inner product with the query, rank by descending
  score (ties broken by ascending storage ordinal, matching the deterministic
  scan order of the flat index), take the best `top_k`, and pad the tail with
  sentinel entries carrying index -1, which is what FAISS returns when fewer
  than `top_k` vectors are stored.
-/

/-- Metadata record: a Python dict with string keys and values. -/
abbrev Meta := List (String × String)

/-- Dict lookup, `meta.get(k)`. -/
def metaGet (m : Meta) (k : String) : Option String :=
  (m.find? (fun kv => kv.1 == k)).map (fun kv => kv.2)

/-- Dict assignment `meta[k] = v`: replace in place if the key exists,
otherwise append a new binding (Python dicts preserve insertion order). -/
def metaSet (m : Meta) (k : String) (v : String) : Meta :=
  if (m.find? (fun kv => kv.1 == k)).isSome then
    m.map (fun kv => if kv.1 == k then (k, v) else kv)
  else
    m ++ [(k, v)]

/-- The value of `meta.get('filepath')` as Python truth-tests it: a missing
key and an empty string are both falsy, so both behave as "no filepath" in
`VectorIndex.add`, `VectorIndex.search` and `remove_duplicates`. -/
def metaFilepathT (m : Meta) : Option String :=
  match metaGet m "filepath" with
  | some s => if s = "" then none else some s
  | none => none

/-- Embedding vector over the rationals. -/
abbrev Vec := List ℚ

/-- Inner product of two vectors (`IndexFlatIP` similarity). -/
def dotIP (q v : Vec) : ℚ := (List.zipWith (fun a b => a * b) q v).sum

/-- Model of `faiss.normalize_L2`: the collaborator delivers unit-norm rows
(spec section 6), and exact normalization of a unit vector is the identity. -/
def normalizeL2 (v : Vec) : Vec := v

/-- State of `VectorIndex` (src/lib/vector_index.py): the flat FAISS vector
store, the parallel metadata list, and the filepath-to-ordinals map (an
insertion-ordered dict). -/
structure IndexState where
  vectors : List Vec
  metadata_store : List Meta
  filepath_map : List (String × List Nat)
deriving Repr, DecidableEq

/-- The empty index produced by `VectorIndex.__init__`. -/
def emptyIndex : IndexState := ⟨[], [], []⟩

/-- One step of the filepath-map update in `VectorIndex.add`: append ordinal
`i` to the list for `fp`, creating the binding if absent. -/
def fmAppend (fm : List (String × List Nat)) (fp : String) (i : Nat) :
    List (String × List Nat) :=
  if (fm.find? (fun kv => kv.1 == fp)).isSome then
    fm.map (fun kv => if kv.1 == fp then (kv.1, kv.2 ++ [i]) else kv)
  else
    fm ++ [(fp, [i])]

/-- The `for i, meta in enumerate(metadata)` loop of `VectorIndex.add`:
record ordinal `start + i` for each metadata row with a truthy filepath. -/
def addFilepaths (fm : List (String × List Nat)) (start : Nat) :
    List Meta → List (String × List Nat)
  | [] => fm
  | m :: rest =>
    match metaFilepathT m with
    | some fp => addFilepaths (fmAppend fm fp start) (start + 1) rest
    | none => addFilepaths fm (start + 1) rest

/-- `VectorIndex.add`: reject a length mismatch, otherwise append the
normalized rows, extend the metadata store, and record the new ordinals in
the filepath map. -/
def VectorIndex.add (st : IndexState) (embeddings : List Vec)
    (metadata : List Meta) : Except String IndexState :=
  if embeddings.length ≠ metadata.length then
    .error "Number of embeddings must match metadata"
  else
    .ok { vectors := st.vectors ++ embeddings.map normalizeL2
          metadata_store := st.metadata_store ++ metadata
          filepath_map := addFilepaths st.filepath_map st.vectors.length metadata }

/-- A ranked candidate returned by the FAISS search: similarity score and
storage ordinal, with -1 standing for the padding FAISS emits when fewer
than `top_k` vectors exist. -/
abbrev Cand := ℚ × ℤ

/-- Ranking order of FAISS results: higher score first, ties by ascending
storage ordinal. -/
def candLE (a b : Cand) : Prop := b.1 < a.1 ∨ (a.1 = b.1 ∧ a.2 ≤ b.2)

instance : DecidableRel candLE := fun a b =>
  inferInstanceAs (Decidable (b.1 < a.1 ∨ (a.1 = b.1 ∧ a.2 ≤ b.2)))

instance : IsTotal Cand candLE where
  total a b := by
    rcases lt_trichotomy a.1 b.1 with h | h | h
    · exact Or.inr (Or.inl h)
    · rcases le_total a.2 b.2 with h2 | h2
      · exact Or.inl (Or.inr ⟨h, h2⟩)
      · exact Or.inr (Or.inr ⟨h.symm, h2⟩)
    · exact Or.inl (Or.inl h)

instance : IsTrans Cand candLE where
  trans a b c hab hbc := by
    rcases hab with h1 | ⟨h1, h1i⟩
    · rcases hbc with h2 | ⟨h2, _⟩
      · exact Or.inl (h2.trans h1)
      · exact Or.inl (h2 ▸ h1)
    · rcases hbc with h2 | ⟨h2, h2i⟩
      · exact Or.inl (h1 ▸ h2)
      · exact Or.inr ⟨h1.trans h2, h1i.trans h2i⟩

/-- Model of `self.index.search(query, top_k)` on an `IndexFlatIP` store:
score every stored row against the normalized query, rank, keep `top_k`,
and pad with sentinel `(0, -1)` entries up to length `top_k`. -/
def faissSearch (vectors : List Vec) (q : Vec) (k : Nat) : List Cand :=
  let scored := (List.range vectors.length).map
    (fun i => (dotIP (normalizeL2 q) (vectors.getD i []), (i : ℤ)))
  let ranked := (List.insertionSort candLE scored).take k
  ranked ++ List.replicate (k - ranked.length) ((0 : ℚ), (-1 : ℤ))

/-- The guard `if threshold and score < threshold` of `VectorIndex.search`:
Python truth-tests the threshold first, so both `None` and `0.0` disable
filtering entirely. -/
def thresholdSkip (threshold : Option ℚ) (score : ℚ) : Bool :=
  match threshold with
  | none => false
  | some t => decide (t ≠ 0) && decide (score < t)

/-- One formatted search result: the metadata row annotated with
`similarity_score` and `index_position` (the two keys the Python code adds
to a copy of the stored dict). -/
structure SearchResult where
  meta : Meta
  similarity_score : ℚ
  index_position : Nat
deriving Repr, DecidableEq

/-- The result-formatting loop of `VectorIndex.search`: skip the -1 padding,
apply the threshold guard, and deduplicate by filepath against the running
`seen_filepaths` set (entries with a falsy filepath are never deduplicated
and never recorded as seen). -/
def searchLoop (store : List Meta) (threshold : Option ℚ) :
    List Cand → List String → List SearchResult
  | [], _ => []
  | (score, idx) :: rest, seen =>
    if idx = -1 then searchLoop store threshold rest seen
    else if thresholdSkip threshold score then searchLoop store threshold rest seen
    else
      let m := store.getD idx.toNat []
      match metaFilepathT m with
      | some fp =>
        if fp ∈ seen then searchLoop store threshold rest seen
        else ⟨m, score, idx.toNat⟩ :: searchLoop store threshold rest (fp :: seen)
      | none => ⟨m, score, idx.toNat⟩ :: searchLoop store threshold rest seen

/-- `VectorIndex.search`: empty index short-circuits to `[]`, otherwise the
FAISS retrieval feeds the formatting loop with an empty seen-set. -/
def VectorIndex.search (st : IndexState) (q : Vec) (top_k : Nat)
    (threshold : Option ℚ) : List SearchResult :=
  if st.vectors.length = 0 then []
  else searchLoop st.metadata_store threshold (faissSearch st.vectors q top_k) []

/-- The scan loop of `VectorIndex.remove_duplicates`: walk the metadata
store, keep the first occurrence of each truthy filepath (and every row
without one), and rebuild the keep-list, metadata list, and filepath map. -/
def rdScan : List Meta → Nat → List Nat → List Meta →
    List (String × List Nat) → List Nat × List Meta × List (String × List Nat)
  | [], _, keep, newMeta, newMap => (keep, newMeta, newMap)
  | m :: rest, i, keep, newMeta, newMap =>
    match metaFilepathT m with
    | some fp =>
      if (newMap.find? (fun kv => kv.1 == fp)).isSome then
        rdScan rest (i + 1) keep newMeta newMap
      else
        rdScan rest (i + 1) (keep ++ [i]) (newMeta ++ [m])
          (newMap ++ [(fp, [newMeta.length])])
    | none => rdScan rest (i + 1) (keep ++ [i]) (newMeta ++ [m]) newMap

/-- `VectorIndex._rebuild_index_subset`: the source explicitly does NOT
rebuild the vector store ("For now, just update metadata" and the runtime
note "Index vectors not rebuilt"); only the metadata store and the filepath
map are replaced, and the keep-list argument is ignored. -/
def rebuildIndexSubset (st : IndexState) (_indices : List Nat)
    (newMeta : List Meta) (newMap : List (String × List Nat)) : IndexState :=
  { st with metadata_store := newMeta, filepath_map := newMap }

/-- `VectorIndex.remove_duplicates`: returns the new state together with the
statistics pair (total_duplicates, filepaths_affected).  The rebuild-branch
guard compares against the store as it stands before the rebuild, but the
returned total_duplicates is computed only AFTER `_rebuild_index_subset`
has rebound `self.metadata_store` to the new list, so the source evaluates
`len(self.metadata_store) - len(new_metadata)` on two equal lists and
always reports 0 on that path. -/
def VectorIndex.removeDuplicates (st : IndexState) : IndexState × Nat × Nat :=
  let duplicates := st.filepath_map.filter (fun kv => kv.2.length > 1)
  if duplicates.length = 0 then (st, 0, 0)
  else
    let scan := rdScan st.metadata_store 0 [] [] []
    if scan.2.1.length < st.metadata_store.length then
      let st' := rebuildIndexSubset st scan.1 scan.2.1 scan.2.2
      (st', st'.metadata_store.length - scan.2.1.length, duplicates.length)
    else (st, 0, 0)

/-- `VectorIndex.get_stats` restricted to the numeric fields:
(total_vectors, total_metadata, unique_files). -/
def VectorIndex.getStats (st : IndexState) : Nat × Nat × Nat :=
  (st.vectors.length, st.metadata_store.length, st.filepath_map.length)

/-! Helper views of a ranked candidate, used to state the search theorems. -/

/-- The metadata row a candidate addresses. -/
def candMeta (store : List Meta) (c : Cand) : Meta := store.getD c.2.toNat []

/-- The (truthy) filepath of the metadata row a candidate addresses. -/
def candFp (store : List Meta) (c : Cand) : Option String :=
  metaFilepathT (candMeta store c)

/-- The formatted result the search loop emits for a kept candidate. -/
def mkResult (store : List Meta) (c : Cand) : SearchResult :=
  ⟨candMeta store c, c.1, c.2.toNat⟩

/-- A candidate survives the pre-deduplication part of the loop and carries
filepath `fp`: it is not FAISS padding, it passes the threshold guard, and
its metadata row names `fp`. -/
def candKept (store : List Meta) (th : Option ℚ) (fp : String) (c : Cand) : Bool :=
  !(c.2 == -1) && !thresholdSkip th c.1 && (candFp store c == some fp)


/-- Unfolding equation for one step of the search loop. -/
theorem searchLoop_cons (store : List Meta) (th : Option ℚ) (score : ℚ) (idx : ℤ)
    (rest : List Cand) (seen : List String) :
    searchLoop store th ((score, idx) :: rest) seen =
      if idx = -1 then searchLoop store th rest seen
      else if thresholdSkip th score then searchLoop store th rest seen
      else
        match metaFilepathT (store.getD idx.toNat []) with
        | some fp =>
          if fp ∈ seen then searchLoop store th rest seen
          else ⟨store.getD idx.toNat [], score, idx.toNat⟩ ::
            searchLoop store th rest (fp :: seen)
        | none => ⟨store.getD idx.toNat [], score, idx.toNat⟩ ::
            searchLoop store th rest seen := rfl

/-- Step lemma: FAISS padding entries are skipped. -/
theorem searchLoop_skip_pad (store : List Meta) (th : Option ℚ) (score : ℚ)
    (idx : ℤ) (rest : List Cand) (seen : List String) (h1 : idx = -1) :
    searchLoop store th ((score, idx) :: rest) seen = searchLoop store th rest seen := by
  simp [searchLoop_cons, h1]

/-- Step lemma: candidates failing the threshold guard are skipped. -/
theorem searchLoop_skip_threshold (store : List Meta) (th : Option ℚ) (score : ℚ)
    (idx : ℤ) (rest : List Cand) (seen : List String) (h1 : idx ≠ -1)
    (h2 : thresholdSkip th score = true) :
    searchLoop store th ((score, idx) :: rest) seen = searchLoop store th rest seen := by
  simp [searchLoop_cons, h1, h2]

/-- Step lemma: a candidate without a truthy filepath is always emitted and
the seen-set is unchanged. -/
theorem searchLoop_emit_nofp (store : List Meta) (th : Option ℚ) (score : ℚ)
    (idx : ℤ) (rest : List Cand) (seen : List String) (h1 : idx ≠ -1)
    (h2 : thresholdSkip th score = false)
    (hm : metaFilepathT (store.getD idx.toNat []) = none) :
    searchLoop store th ((score, idx) :: rest) seen =
      ⟨store.getD idx.toNat [], score, idx.toNat⟩ :: searchLoop store th rest seen := by
  rw [searchLoop_cons, if_neg h1, if_neg (by simp [h2] : ¬ thresholdSkip th score = true), hm]

/-- Step lemma: a candidate whose filepath was already seen is skipped. -/
theorem searchLoop_skip_seen (store : List Meta) (th : Option ℚ) (score : ℚ)
    (idx : ℤ) (rest : List Cand) (seen : List String) (fp0 : String) (h1 : idx ≠ -1)
    (h2 : thresholdSkip th score = false)
    (hm : metaFilepathT (store.getD idx.toNat []) = some fp0) (h3 : fp0 ∈ seen) :
    searchLoop store th ((score, idx) :: rest) seen = searchLoop store th rest seen := by
  rw [searchLoop_cons, if_neg h1, if_neg (by simp [h2] : ¬ thresholdSkip th score = true), hm]
  exact if_pos h3

/-- Step lemma: a candidate with an unseen truthy filepath is emitted and its
filepath is recorded as seen. -/
theorem searchLoop_emit_fp (store : List Meta) (th : Option ℚ) (score : ℚ)
    (idx : ℤ) (rest : List Cand) (seen : List String) (fp0 : String) (h1 : idx ≠ -1)
    (h2 : thresholdSkip th score = false)
    (hm : metaFilepathT (store.getD idx.toNat []) = some fp0) (h3 : fp0 ∉ seen) :
    searchLoop store th ((score, idx) :: rest) seen =
      ⟨store.getD idx.toNat [], score, idx.toNat⟩ ::
        searchLoop store th rest (fp0 :: seen) := by
  rw [searchLoop_cons, if_neg h1, if_neg (by simp [h2] : ¬ thresholdSkip th score = true), hm]
  exact if_neg h3

theorem searchLoop_seen_blocked (store : List Meta) (th : Option ℚ) (fp : String) :
    ∀ (l : List Cand) (seen : List String), fp ∈ seen →
      (searchLoop store th l seen).filter
        (fun r => metaFilepathT r.meta == some fp) = [] := by
  intro l
  induction l with
  | nil => intro seen _; simp [searchLoop]
  | cons c rest ih =>
    intro seen hseen
    obtain ⟨score, idx⟩ := c
    by_cases h1 : idx = -1
    · rw [searchLoop_skip_pad _ _ _ _ _ _ h1]; exact ih seen hseen
    · by_cases h2 : thresholdSkip th score = true
      · rw [searchLoop_skip_threshold _ _ _ _ _ _ h1 h2]; exact ih seen hseen
      · have h2f : thresholdSkip th score = false := by simpa using h2
        rcases hm : metaFilepathT (store.getD idx.toNat []) with _ | fp0
        · rw [searchLoop_emit_nofp _ _ _ _ _ _ h1 h2f hm, List.filter_cons]
          have hhead : (metaFilepathT
              ((⟨store.getD idx.toNat [], score, idx.toNat⟩ : SearchResult).meta)
                == some fp) = false := by
            show (metaFilepathT (store.getD idx.toNat []) == some fp) = false
            rw [hm]; rfl
          rw [hhead]
          exact ih seen hseen
        · by_cases h3 : fp0 ∈ seen
          · rw [searchLoop_skip_seen _ _ _ _ _ _ _ h1 h2f hm h3]; exact ih seen hseen
          · have hne : fp0 ≠ fp := fun h => h3 (h ▸ hseen)
            rw [searchLoop_emit_fp _ _ _ _ _ _ _ h1 h2f hm h3, List.filter_cons]
            have hhead : (metaFilepathT
                ((⟨store.getD idx.toNat [], score, idx.toNat⟩ : SearchResult).meta)
                  == some fp) = false := by
              show (metaFilepathT (store.getD idx.toNat []) == some fp) = false
              rw [hm]; simpa using hne
            rw [hhead]
            exact ih (fp0 :: seen) (List.mem_cons_of_mem _ hseen)

/-- Core deduplication law of the formatting loop: among candidates carrying
filepath `fp`, exactly the first surviving one is emitted, and it is emitted
as its formatted result. -/
theorem searchLoop_filter_eq (store : List Meta) (th : Option ℚ) (fp : String) :
    ∀ (l : List Cand) (seen : List String), fp ∉ seen →
      (searchLoop store th l seen).filter
          (fun r => metaFilepathT r.meta == some fp) =
        ((l.filter (candKept store th fp)).take 1).map (mkResult store) := by
  intro l
  induction l with
  | nil => intro seen _; simp [searchLoop]
  | cons c rest ih =>
    intro seen hseen
    obtain ⟨score, idx⟩ := c
    by_cases h1 : idx = -1
    · rw [searchLoop_skip_pad _ _ _ _ _ _ h1, List.filter_cons]
      have hk : candKept store th fp (score, idx) = false := by
        simp [candKept, h1]
      rw [hk]
      exact ih seen hseen
    · by_cases h2 : thresholdSkip th score = true
      · rw [searchLoop_skip_threshold _ _ _ _ _ _ h1 h2, List.filter_cons]
        have hk : candKept store th fp (score, idx) = false := by
          simp [candKept, h2]
        rw [hk]
        exact ih seen hseen
      · have h2f : thresholdSkip th score = false := by simpa using h2
        rcases hm : metaFilepathT (store.getD idx.toNat []) with _ | fp0
        · have hcf : candFp store (score, idx) = none := hm
          rw [searchLoop_emit_nofp _ _ _ _ _ _ h1 h2f hm, List.filter_cons,
            List.filter_cons]
          have hhead : (metaFilepathT
              ((⟨store.getD idx.toNat [], score, idx.toNat⟩ : SearchResult).meta)
                == some fp) = false := by
            show (metaFilepathT (store.getD idx.toNat []) == some fp) = false
            rw [hm]; rfl
          have hk : candKept store th fp (score, idx) = false := by
            simp [candKept, hcf]
          rw [hhead, hk]
          exact ih seen hseen
        · have hcf : candFp store (score, idx) = some fp0 := hm
          by_cases h3 : fp0 ∈ seen
          · have hne : fp0 ≠ fp := fun h => hseen (h ▸ h3)
            rw [searchLoop_skip_seen _ _ _ _ _ _ _ h1 h2f hm h3, List.filter_cons]
            have hk : candKept store th fp (score, idx) = false := by
              simp [candKept, hcf, hne]
            rw [hk]
            exact ih seen hseen
          · by_cases heq : fp0 = fp
            · subst heq
              rw [searchLoop_emit_fp _ _ _ _ _ _ _ h1 h2f hm h3, List.filter_cons]
              have hhead : (metaFilepathT
                  ((⟨store.getD idx.toNat [], score, idx.toNat⟩ : SearchResult).meta)
                    == some fp0) = true := by
                show (metaFilepathT (store.getD idx.toNat []) == some fp0) = true
                rw [hm]; simp
              rw [hhead, searchLoop_seen_blocked store th fp0 rest (fp0 :: seen)
                (List.mem_cons_self _ _), List.filter_cons]
              have hk : candKept store th fp0 (score, idx) = true := by
                simp [candKept, hcf, h1, h2f]
              rw [hk]
              simp [mkResult, candMeta]
            · rw [searchLoop_emit_fp _ _ _ _ _ _ _ h1 h2f hm h3, List.filter_cons]
              have hhead : (metaFilepathT
                  ((⟨store.getD idx.toNat [], score, idx.toNat⟩ : SearchResult).meta)
                    == some fp) = false := by
                show (metaFilepathT (store.getD idx.toNat []) == some fp) = false
                rw [hm]; simpa using heq
              rw [hhead, List.filter_cons]
              have hk : candKept store th fp (score, idx) = false := by
                simp [candKept, hcf, heq]
              rw [hk]
              have hnotin : fp ∉ fp0 :: seen := by
                intro hmem
                rcases List.mem_cons.mp hmem with h | h
                · exact heq h.symm
                · exact hseen h
              exact ih (fp0 :: seen) hnotin

/-- Everything the FAISS model returns beyond the ranked part is padding. -/
theorem faissSearch_split (vectors : List Vec) (q : Vec) (k : Nat) :
    ∃ ranked pad, faissSearch vectors q k = ranked ++ pad ∧
      List.Sorted candLE ranked ∧ (∀ c ∈ pad, c.2 = (-1 : ℤ)) := by
  refine ⟨_, _, rfl, ?_, ?_⟩
  · exact ((List.sorted_insertionSort candLE _).sublist (List.take_sublist _ _))
  · intro c hc
    rw [List.eq_of_mem_replicate hc]

/-- The loop emits at most one result per consumed candidate. -/
theorem searchLoop_length_le (store : List Meta) (th : Option ℚ) :
    ∀ (l : List Cand) (seen : List String),
      (searchLoop store th l seen).length ≤ l.length := by
  intro l
  induction l with
  | nil => intro seen; simp [searchLoop]
  | cons c rest ih =>
    intro seen
    obtain ⟨score, idx⟩ := c
    by_cases h1 : idx = -1
    · rw [searchLoop_skip_pad _ _ _ _ _ _ h1]
      exact (ih seen).trans (Nat.le_succ _)
    · by_cases h2 : thresholdSkip th score = true
      · rw [searchLoop_skip_threshold _ _ _ _ _ _ h1 h2]
        exact (ih seen).trans (Nat.le_succ _)
      · have h2f : thresholdSkip th score = false := by simpa using h2
        rcases hm : metaFilepathT (store.getD idx.toNat []) with _ | fp0
        · rw [searchLoop_emit_nofp _ _ _ _ _ _ h1 h2f hm]
          simpa using ih seen
        · by_cases h3 : fp0 ∈ seen
          · rw [searchLoop_skip_seen _ _ _ _ _ _ _ h1 h2f hm h3]
            exact (ih seen).trans (Nat.le_succ _)
          · rw [searchLoop_emit_fp _ _ _ _ _ _ _ h1 h2f hm h3]
            simpa using ih (fp0 :: seen)

/-- The FAISS model always hands exactly `top_k` candidate slots to the loop
(padding included), mirroring the fixed-size result arrays FAISS returns. -/
theorem faissSearch_length (vectors : List Vec) (q : Vec) (k : Nat) :
    (faissSearch vectors q k).length = k := by
  simp only [faissSearch, List.length_append, List.length_replicate]
  have h := List.length_take_le k
    (List.insertionSort candLE ((List.range vectors.length).map
      (fun i => (dotIP (normalizeL2 q) (vectors.getD i []), (i : ℤ)))))
  omega

/-- Every emitted result is the formatted image of a surviving candidate. -/
theorem searchLoop_mem_src (store : List Meta) (th : Option ℚ) :
    ∀ (l : List Cand) (seen : List String), ∀ r ∈ searchLoop store th l seen,
      ∃ c ∈ l, c.2 ≠ -1 ∧ thresholdSkip th c.1 = false ∧ r = mkResult store c := by
  intro l
  induction l with
  | nil => intro seen r hr; simp [searchLoop] at hr
  | cons c rest ih =>
    intro seen r hr
    obtain ⟨score, idx⟩ := c
    by_cases h1 : idx = -1
    · rw [searchLoop_skip_pad _ _ _ _ _ _ h1] at hr
      obtain ⟨c, hc, h⟩ := ih seen r hr
      exact ⟨c, List.mem_cons_of_mem _ hc, h⟩
    · by_cases h2 : thresholdSkip th score = true
      · rw [searchLoop_skip_threshold _ _ _ _ _ _ h1 h2] at hr
        obtain ⟨c, hc, h⟩ := ih seen r hr
        exact ⟨c, List.mem_cons_of_mem _ hc, h⟩
      · have h2f : thresholdSkip th score = false := by simpa using h2
        rcases hm : metaFilepathT (store.getD idx.toNat []) with _ | fp0
        · rw [searchLoop_emit_nofp _ _ _ _ _ _ h1 h2f hm] at hr
          rcases List.mem_cons.mp hr with h | h
          · exact ⟨(score, idx), List.mem_cons_self _ _, h1, h2f, h⟩
          · obtain ⟨c, hc, hh⟩ := ih seen r h
            exact ⟨c, List.mem_cons_of_mem _ hc, hh⟩
        · by_cases h3 : fp0 ∈ seen
          · rw [searchLoop_skip_seen _ _ _ _ _ _ _ h1 h2f hm h3] at hr
            obtain ⟨c, hc, hh⟩ := ih seen r hr
            exact ⟨c, List.mem_cons_of_mem _ hc, hh⟩
          · rw [searchLoop_emit_fp _ _ _ _ _ _ _ h1 h2f hm h3] at hr
            rcases List.mem_cons.mp hr with h | h
            · exact ⟨(score, idx), List.mem_cons_self _ _, h1, h2f, h⟩
            · obtain ⟨c, hc, hh⟩ := ih (fp0 :: seen) r h
              exact ⟨c, List.mem_cons_of_mem _ hc, hh⟩

/-- With a nonzero threshold, the loop behaves exactly as the unfiltered loop
run on the candidates whose score reaches the threshold: the threshold
excludes exactly the ranked candidates scoring strictly below it. -/
theorem searchLoop_threshold_exact (store : List Meta) (t : ℚ) (ht : t ≠ 0) :
    ∀ (l : List Cand) (seen : List String),
      searchLoop store (some t) l seen =
        searchLoop store none (l.filter (fun c => decide (t ≤ c.1))) seen := by
  intro l
  induction l with
  | nil => intro seen; simp [searchLoop]
  | cons c rest ih =>
    intro seen
    obtain ⟨score, idx⟩ := c
    by_cases hs : t ≤ score
    · rw [List.filter_cons,
        if_pos (show decide (t ≤ ((score, idx) : Cand).1) = true by simpa using hs)]
      have hth : thresholdSkip (some t) score = false := by
        simp [thresholdSkip, ht, not_lt.mpr hs]
      by_cases h1 : idx = -1
      · rw [searchLoop_skip_pad _ _ _ _ _ _ h1, searchLoop_skip_pad _ _ _ _ _ _ h1]
        exact ih seen
      · rcases hm : metaFilepathT (store.getD idx.toNat []) with _ | fp0
        · rw [searchLoop_emit_nofp _ _ _ _ _ _ h1 hth hm,
            searchLoop_emit_nofp _ _ _ _ _ _ h1
              (show thresholdSkip none score = false from rfl) hm, ih seen]
        · by_cases h3 : fp0 ∈ seen
          · rw [searchLoop_skip_seen _ _ _ _ _ _ _ h1 hth hm h3,
              searchLoop_skip_seen _ _ _ _ _ _ _ h1
                (show thresholdSkip none score = false from rfl) hm h3]
            exact ih seen
          · rw [searchLoop_emit_fp _ _ _ _ _ _ _ h1 hth hm h3,
              searchLoop_emit_fp _ _ _ _ _ _ _ h1
                (show thresholdSkip none score = false from rfl) hm h3, ih (fp0 :: seen)]
    · rw [List.filter_cons,
        if_neg (show ¬ decide (t ≤ ((score, idx) : Cand).1) = true by simpa using hs)]
      by_cases h1 : idx = -1
      · rw [searchLoop_skip_pad _ _ _ _ _ _ h1]
        exact ih seen
      · have hth : thresholdSkip (some t) score = true := by
          simp [thresholdSkip, ht, lt_of_not_le hs]
        rw [searchLoop_skip_threshold _ _ _ _ _ _ h1 hth]
        exact ih seen

/-- Decoding of `candKept` into its three propositional components. -/
theorem candKept_iff (store : List Meta) (th : Option ℚ) (fp : String) (c : Cand) :
    candKept store th fp c = true ↔
      c.2 ≠ -1 ∧ thresholdSkip th c.1 = false ∧ candFp store c = some fp := by
  simp [candKept, and_assoc]

/-- On an empty store the FAISS model only returns padding. -/
theorem faissSearch_nil (q : Vec) (k : Nat) (vectors : List Vec)
    (hz : vectors.length = 0) :
    faissSearch vectors q k = List.replicate k ((0 : ℚ), (-1 : ℤ)) := by
  simp [faissSearch, hz]

/-- One-shot characterisation of which results of `VectorIndex.search` carry
filepath `fp`: exactly the first surviving candidate with that filepath, if
any, formatted. -/
theorem search_filter_take_one (st : IndexState) (q : Vec) (k : Nat)
    (th : Option ℚ) (fp : String) :
    (VectorIndex.search st q k th).filter
        (fun r => metaFilepathT r.meta == some fp) =
      (((faissSearch st.vectors q k).filter
          (candKept st.metadata_store th fp)).take 1).map
        (mkResult st.metadata_store) := by
  by_cases hz : st.vectors.length = 0
  · rw [VectorIndex.search, if_pos hz, faissSearch_nil q k _ hz]
    have hpad : candKept st.metadata_store th fp ((0 : ℚ), (-1 : ℤ)) = false := by
      simp [candKept]
    simp [List.filter_replicate, hpad]
  · rw [VectorIndex.search, if_neg hz]
    exact searchLoop_filter_eq st.metadata_store th fp _ [] (by simp)

/-- The surviving candidates of a FAISS retrieval, in emission order, form a
list ranked by `candLE` (the padding never survives). -/
theorem faiss_filter_sorted (st : IndexState) (q : Vec) (k : Nat)
    (th : Option ℚ) (fp : String) :
    List.Sorted candLE ((faissSearch st.vectors q k).filter
      (candKept st.metadata_store th fp)) := by
  obtain ⟨ranked, pad, heq, hsorted, hpad⟩ := faissSearch_split st.vectors q k
  rw [heq, List.filter_append]
  have hpadnil : pad.filter (candKept st.metadata_store th fp) = [] := by
    refine List.filter_eq_nil_iff.mpr ?_
    intro c hc
    have h2 := hpad c hc
    simp [candKept, h2]
  rw [hpadnil, List.append_nil]
  exact hsorted.sublist (List.filter_sublist _)

/-- Every surviving candidate with filepath `fp` is dominated by the result
`VectorIndex.search` returns for `fp`. -/
theorem search_dominates (st : IndexState) (q : Vec) (k : Nat)
    (th : Option ℚ) (fp : String) :
    ∀ c ∈ faissSearch st.vectors q k,
      candKept st.metadata_store th fp c = true →
      ∃ r ∈ VectorIndex.search st q k th,
        metaFilepathT r.meta = some fp ∧ c.1 ≤ r.similarity_score := by
  intro c hc hkept
  have hmemf : c ∈ (faissSearch st.vectors q k).filter
      (candKept st.metadata_store th fp) := List.mem_filter.mpr ⟨hc, hkept⟩
  rcases hfl : (faissSearch st.vectors q k).filter
      (candKept st.metadata_store th fp) with _ | ⟨c0, tl⟩
  · rw [hfl] at hmemf; simp at hmemf
  · have hr := search_filter_take_one st q k th fp
    rw [hfl] at hr
    simp only [List.take_succ_cons, List.take_zero, List.map_cons, List.map_nil] at hr
    have hrmem : mkResult st.metadata_store c0 ∈ VectorIndex.search st q k th := by
      have : mkResult st.metadata_store c0 ∈
          (VectorIndex.search st q k th).filter
            (fun r => metaFilepathT r.meta == some fp) := by
        rw [hr]; exact List.mem_cons_self _ _
      exact List.mem_of_mem_filter this
    have hc0mem : c0 ∈ (faissSearch st.vectors q k).filter
        (candKept st.metadata_store th fp) := by
      rw [hfl]; exact List.mem_cons_self _ _
    have hc0kept := (List.mem_filter.mp hc0mem).2
    have hc0fp : candFp st.metadata_store c0 = some fp :=
      ((candKept_iff _ _ _ _).mp hc0kept).2.2
    refine ⟨mkResult st.metadata_store c0, hrmem, hc0fp, ?_⟩
    have hsorted := faiss_filter_sorted st q k th fp
    rw [hfl] at hsorted
    rw [hfl] at hmemf
    rcases List.mem_cons.mp hmemf with hcc | hcc
    · subst hcc; exact le_refl _
    · have hle : candLE c0 c := List.rel_of_sorted_cons hsorted c hcc
      rcases hle with h | ⟨h, _⟩
      · exact le_of_lt h
      · exact le_of_eq h.symm

/-! Concrete fixtures used by witnesses and counterexamples. -/

/-- Metadata row for a file "a". -/
def metaA : Meta := [("filepath", "a")]

/-- Metadata row for a file "b". -/
def metaB : Meta := [("filepath", "b")]

/-- An index holding two vectors for the same filepath "a" (a duplicate add):
the unit vectors (1,0) and (3/5,4/5). -/
def stDupA : IndexState :=
  ⟨[[1, 0], [3/5, 4/5]], [metaA, metaA], [("a", [0, 1])]⟩

/-- An index holding filepath "a" twice and filepath "b" once. -/
def stDup3 : IndexState :=
  ⟨[[1, 0], [1, 0], [0, 1]], [metaA, metaA, metaB], [("a", [0, 1]), ("b", [2])]⟩

/-- An index holding two distinct filepaths at different similarities. -/
def stTwo : IndexState :=
  ⟨[[1, 0], [3/5, 4/5]], [metaA, metaB], [("a", [0]), ("b", [1])]⟩

/-- Claim C1: for every index state and every query, a given filepath occurs
at most once in the results of VectorIndex.search; the surviving occurrence
is exactly the first-ranked candidate for that filepath that passes padding,
threshold and deduplication; and its score dominates the score of every
surviving ranked candidate for the same filepath, so duplicate adds surface
only through their best-scoring match. -/
theorem search_dedup_keeps_best (st : IndexState) (q : Vec) (k : Nat)
    (th : Option ℚ) (fp : String) :
    ((VectorIndex.search st q k th).filter
        (fun r => metaFilepathT r.meta == some fp)).length ≤ 1
    ∧ (VectorIndex.search st q k th).filter
          (fun r => metaFilepathT r.meta == some fp) =
        (((faissSearch st.vectors q k).filter
            (candKept st.metadata_store th fp)).take 1).map
          (mkResult st.metadata_store)
    ∧ ∀ c ∈ faissSearch st.vectors q k,
        candKept st.metadata_store th fp c = true →
        ∃ r ∈ VectorIndex.search st q k th,
          metaFilepathT r.meta = some fp ∧ c.1 ≤ r.similarity_score := by
  refine ⟨?_, search_filter_take_one st q k th fp, search_dominates st q k th fp⟩
  rw [search_filter_take_one st q k th fp]
  simp only [List.length_map]
  exact List.length_take_le 1 _

/-- Witness for C1 on a concrete duplicate index: filepath "a" was added
twice (scores 1 and 3/5 against the query); the result list mentions it at
most once and the returned score dominates the weaker duplicate. -/
theorem search_dedup_keeps_best_witness :
    ((VectorIndex.search stDupA [1, 0] 10 none).filter
        (fun r => metaFilepathT r.meta == some "a")).length ≤ 1
    ∧ ∃ r ∈ VectorIndex.search stDupA [1, 0] 10 none,
        metaFilepathT r.meta = some "a" ∧ (3/5 : ℚ) ≤ r.similarity_score := by
  refine ⟨(search_dedup_keeps_best stDupA [1, 0] 10 none "a").1,
    (search_dedup_keeps_best stDupA [1, 0] 10 none "a").2.2 ((3/5 : ℚ), (1 : ℤ)) ?_ ?_⟩
  · show ((3/5 : ℚ), (1 : ℤ)) ∈ faissSearch stDupA.vectors [1, 0] 10
    norm_num [faissSearch, dotIP, normalizeL2, stDupA, List.insertionSort,
      List.orderedInsert, candLE]
  · show candKept stDupA.metadata_store none "a" ((3/5 : ℚ), (1 : ℤ)) = true
    norm_num [candKept, candFp, candMeta, stDupA, metaA, metaFilepathT, metaGet,
      thresholdSkip]
    decide

/-- Claim C10: VectorIndex.search retrieves only the best top_k storage slots
before threshold and deduplication, so it never returns more than top_k
results; the empty index yields the empty list; and when one filepath
occupies several of the top_k slots the result can hold strictly fewer
distinct filepaths than min(top_k, number of distinct filepaths in the
index), as the concrete index stDup3 shows: filepath "a" fills both top-2
slots, so only one of the two qualifying filepaths is returned. -/
theorem search_topk_bound (st0 : IndexState) :
    (∀ (q : Vec) (k : Nat) (th : Option ℚ),
        (VectorIndex.search st0 q k th).length ≤ k)
    ∧ (∀ (q : Vec) (k : Nat) (th : Option ℚ),
        VectorIndex.search emptyIndex q k th = [])
    ∧ VectorIndex.add emptyIndex [[1, 0], [1, 0], [0, 1]] [metaA, metaA, metaB]
        = .ok stDup3
    ∧ (VectorIndex.search stDup3 [1, 0] 2 none).map (fun r => r.meta) = [metaA]
    ∧ 1 < min 2 stDup3.filepath_map.length := by
  refine ⟨?_, ?_, ?_, ?_, by decide⟩
  · intro q k th
    rw [VectorIndex.search]
    by_cases hz : st0.vectors.length = 0
    · simp [hz]
    · rw [if_neg hz]
      have h := searchLoop_length_le st0.metadata_store th
        (faissSearch st0.vectors q k) []
      rwa [faissSearch_length] at h
  · intro q k th
    rw [VectorIndex.search]
    simp [emptyIndex]
  · norm_num [VectorIndex.add, emptyIndex, addFilepaths, fmAppend, metaFilepathT,
      metaGet, metaA, metaB, normalizeL2, stDup3]
    decide
  · norm_num [VectorIndex.search, faissSearch, dotIP, normalizeL2, stDup3,
      List.insertionSort, List.orderedInsert, searchLoop, thresholdSkip,
      metaFilepathT, metaGet, metaA, metaB, candLE]
    decide

/-- Counterexample to claim C9 as stated: with the caller-supplied threshold
t = 0.0 the Python guard `if threshold and score < threshold` is skipped
because 0.0 is falsy, so a result scoring -1 (strictly below the threshold)
is returned anyway. -/
theorem search_threshold_zero_counterexample :
    VectorIndex.search ⟨[[-1]], [metaA], [("a", [0])]⟩ [1] 1 (some 0)
      = [⟨metaA, -1, 0⟩] ∧ (-1 : ℚ) < 0 := by
  constructor
  · norm_num [VectorIndex.search, faissSearch, dotIP, normalizeL2,
      List.insertionSort, List.orderedInsert, searchLoop, thresholdSkip,
      metaFilepathT, metaGet, metaA]
    decide
  · norm_num

/-- Claim C9 as amended: for every nonzero threshold t, VectorIndex.search
excludes exactly the ranked candidates scoring strictly below t (the run
with threshold t equals the unfiltered run on the candidates with score at
least t) and every returned result scores at least t; a threshold of 0.0 is
falsy in Python and disables filtering altogether. -/
theorem search_threshold_exact_amended (st : IndexState) (q : Vec) (k : Nat)
    (t : ℚ) (ht : t ≠ 0) :
    (st.vectors.length ≠ 0 →
      VectorIndex.search st q k (some t) =
        searchLoop st.metadata_store none
          ((faissSearch st.vectors q k).filter (fun c => decide (t ≤ c.1))) [])
    ∧ ∀ r ∈ VectorIndex.search st q k (some t), t ≤ r.similarity_score := by
  constructor
  · intro hz
    rw [VectorIndex.search, if_neg hz]
    exact searchLoop_threshold_exact st.metadata_store t ht _ []
  · intro r hr
    rw [VectorIndex.search] at hr
    by_cases hz : st.vectors.length = 0
    · rw [if_pos hz] at hr; simp at hr
    · rw [if_neg hz] at hr
      obtain ⟨c, _, _, hskip, hreq⟩ :=
        searchLoop_mem_src st.metadata_store (some t) _ [] r hr
      have : ¬ c.1 < t := by
        intro hlt
        rw [show thresholdSkip (some t) c.1 = true by
          simp [thresholdSkip, ht, hlt]] at hskip
        exact Bool.true_eq_false.mp hskip
      rw [hreq]
      exact not_lt.mp this

/-- Witness for the amended C9 on a concrete index: with threshold 4/5 the
search over stTwo returns exactly the unfiltered run on the candidates
scoring at least 4/5, and every returned score is at least 4/5. -/
theorem search_threshold_exact_amended_witness :
    (VectorIndex.search stTwo [1, 0] 10 (some (4/5)) =
      searchLoop stTwo.metadata_store none
        ((faissSearch stTwo.vectors [1, 0] 10).filter
          (fun c => decide ((4/5 : ℚ) ≤ c.1))) [])
    ∧ ∀ r ∈ VectorIndex.search stTwo [1, 0] 10 (some (4/5)),
        (4/5 : ℚ) ≤ r.similarity_score := by
  have h := search_threshold_exact_amended stTwo [1, 0] 10 (4/5) (by norm_num)
  exact ⟨h.1 (by decide), h.2⟩

/-- Claim C2: the code does not rebuild the vector store after compaction.
VectorIndex.remove_duplicates leaves the stored vectors untouched in every
case (its helper only replaces metadata and the filepath map, as the source
itself notes), so after removing duplicates from the concrete index stDupA,
built by two adds of filepath "a", the store holds 2 vectors but only 1
metadata row: the two stores disagree, contradicting the claimed rebuild.
The reported statistics are (0, 1): total_duplicates is computed after the
metadata store has already been rebound to the deduplicated list, so the
subtraction always yields 0 on the rebuild path. -/
theorem remove_duplicates_keeps_vectors (st0 : IndexState) :
    (VectorIndex.removeDuplicates st0).1.vectors = st0.vectors
    ∧ VectorIndex.add emptyIndex [[1, 0], [3/5, 4/5]] [metaA, metaA] = .ok stDupA
    ∧ (VectorIndex.removeDuplicates stDupA).1.vectors.length = 2
    ∧ (VectorIndex.removeDuplicates stDupA).1.metadata_store.length = 1
    ∧ (VectorIndex.removeDuplicates stDupA).2 = (0, 1) := by
  refine ⟨?_, ?_, by decide, by decide, by decide⟩
  · simp only [VectorIndex.removeDuplicates, rebuildIndexSubset]
    split
    · rfl
    · split
      · rfl
      · rfl
  · norm_num [VectorIndex.add, emptyIndex, addFilepaths, fmAppend, metaFilepathT,
      metaGet, metaA, normalizeL2, stDupA]
    decide

/-!
Model of the search engine and archive-aware indexer
(src/lib/search_engine.py, src/lib/archive_handler.py).

External collaborators (validator verdict, metadata extractor output,
companion extraction, searchable-text construction, embedding generation)
are supplied as explicit inputs, mirroring the spec treating them as
interface-only collaborators; the control flow around them is translated
from the source.
-/

/-- The return value of FAIRSearchEngine.index_file: a validation-failure
dict, the propagated extractor-error dict, or the success dict (with the
length of the searchable text). -/
inductive FileOutcome where
  | invalid (message : String) (filepath : String)
  | extractError (metadata : Meta)
  | indexed (filepath : String) (textLength : Nat)
deriving Repr, DecidableEq

/-- Collaborator inputs consumed by one index_file call. -/
structure ExtractServices where
  validation : Bool × String
  metadata : Meta
  companionDocs : String
  companionText : String
  baseText : String
  embedding : Vec
deriving Repr

/-- FAIRSearchEngine.index_file: validate (when asked), propagate extractor
errors, otherwise attach companion data, build the searchable text, embed
it, and add exactly one row to the vector index.  The error branch of add
is unreachable here because add receives matching one-element lists. -/
def engineIndexFile (st : IndexState) (filepath : String)
    (validate includeCompanions : Bool) (svc : ExtractServices) :
    FileOutcome × IndexState :=
  if validate && !svc.validation.1 then
    (.invalid svc.validation.2 filepath, st)
  else if (metaGet svc.metadata "error").isSome then
    (.extractError svc.metadata, st)
  else
    match VectorIndex.add st [svc.embedding]
        [if includeCompanions then
          metaSet svc.metadata "companion_docs" svc.companionDocs
         else svc.metadata] with
    | .ok st' => (.indexed filepath (svc.baseText ++ " "
        ++ (if includeCompanions then svc.companionText else "")).length, st')
    | .error msg => (.invalid msg filepath, st)

/-- Claim C5: index_file is atomic with respect to the index.  A validation
failure returns the validator message and leaves the index untouched; an
extractor-reported error propagates that metadata and leaves the index
untouched; on success exactly one row is appended to each parallel store. -/
theorem engineIndexFile_atomic (st : IndexState) (fp : String)
    (ic : Bool) (svc : ExtractServices) :
    (svc.validation.1 = false →
      engineIndexFile st fp true ic svc = (.invalid svc.validation.2 fp, st))
    ∧ ((metaGet svc.metadata "error").isSome → svc.validation.1 = true →
      engineIndexFile st fp true ic svc = (.extractError svc.metadata, st))
    ∧ (svc.validation.1 = true → metaGet svc.metadata "error" = none →
      ∃ m', (engineIndexFile st fp true ic svc).2.vectors
            = st.vectors ++ [svc.embedding]
        ∧ (engineIndexFile st fp true ic svc).2.metadata_store
            = st.metadata_store ++ [m']
        ∧ (engineIndexFile st fp true ic svc).2.filepath_map
            = addFilepaths st.filepath_map st.vectors.length [m']
        ∧ (engineIndexFile st fp true ic svc).1
            = .indexed fp (svc.baseText ++ " "
                ++ (if ic then svc.companionText else "")).length) := by
  refine ⟨?_, ?_, ?_⟩
  · intro hv
    rw [engineIndexFile, if_pos (by simp [hv])]
  · intro he hv
    rw [engineIndexFile, if_neg (by simp [hv]), if_pos he]
  · intro hv he
    refine ⟨if ic then metaSet svc.metadata "companion_docs" svc.companionDocs
      else svc.metadata, ?_⟩
    rw [engineIndexFile, if_neg (by simp [hv]), if_neg (by simp [he])]
    rw [show VectorIndex.add st [svc.embedding]
        [if ic then metaSet svc.metadata "companion_docs" svc.companionDocs
          else svc.metadata]
      = .ok { vectors := st.vectors ++ [svc.embedding]
              metadata_store := st.metadata_store
                ++ [if ic then metaSet svc.metadata "companion_docs" svc.companionDocs
                    else svc.metadata]
              filepath_map := addFilepaths st.filepath_map st.vectors.length
                [if ic then metaSet svc.metadata "companion_docs" svc.companionDocs
                  else svc.metadata] } by
      rw [VectorIndex.add, if_neg (by simp)]
      rfl]
    simp [normalizeL2]

/-- Collaborator bundle for a file failing validation. -/
def svcBad : ExtractServices :=
  ⟨(false, "Invalid: File too small (10 bytes)"), [("filepath", "f.nc")],
    "", "", "text", [1]⟩

/-- Collaborator bundle whose extractor reports an error key. -/
def svcErr : ExtractServices :=
  ⟨(true, "Valid netcdf file"),
    [("filepath", "f.nc"), ("error", "netCDF4 not installed")],
    "", "", "text", [1]⟩

/-- Collaborator bundle for a successfully indexed file. -/
def svcOk : ExtractServices :=
  ⟨(true, "Valid netcdf file"), [("filepath", "f.nc")],
    "docs", "ctext", "base", [1, 0]⟩

/-- Witness for C5 at concrete inputs: validation failure and extractor
error leave the empty index untouched; the success case appends exactly one
row to every store. -/
theorem engineIndexFile_atomic_witness :
    engineIndexFile emptyIndex "f.nc" true true svcBad
      = (.invalid svcBad.validation.2 "f.nc", emptyIndex)
    ∧ engineIndexFile emptyIndex "f.nc" true true svcErr
      = (.extractError svcErr.metadata, emptyIndex)
    ∧ ∃ m', (engineIndexFile emptyIndex "f.nc" true true svcOk).2.vectors
          = emptyIndex.vectors ++ [svcOk.embedding]
        ∧ (engineIndexFile emptyIndex "f.nc" true true svcOk).2.metadata_store
          = emptyIndex.metadata_store ++ [m']
        ∧ (engineIndexFile emptyIndex "f.nc" true true svcOk).2.filepath_map
          = addFilepaths emptyIndex.filepath_map emptyIndex.vectors.length [m']
        ∧ (engineIndexFile emptyIndex "f.nc" true true svcOk).1
          = .indexed "f.nc" (svcOk.baseText ++ " "
              ++ (if true then svcOk.companionText else "")).length :=
  ⟨(engineIndexFile_atomic emptyIndex "f.nc" true svcBad).1 rfl,
   (engineIndexFile_atomic emptyIndex "f.nc" true svcErr).2.1 (by decide) rfl,
   (engineIndexFile_atomic emptyIndex "f.nc" true svcOk).2.2 rfl (by decide)⟩

/-- Substring test for "..", written on the character list. -/
def hasDotDot : List Char → Bool
  | '.' :: '.' :: _ => true
  | _ :: rest => hasDotDot rest
  | [] => false

/-- The entry-name security check of ArchiveHandler._extract_zip and
_extract_tar: an entry is unsafe when its name starts with a slash or
contains ".." anywhere (the Python code tests the substring). -/
def unsafeEntry (name : String) : Bool :=
  (match name.data with | '/' :: _ => true | _ => false) || hasDotDot name.data

/-- The extraction security gate: scan every entry name before extracting
anything; the first unsafe name aborts the whole archive with the ValueError
message of the source, and only a fully safe archive is extracted. -/
def extractZipGate (entries : List String) : Except String Unit :=
  match entries.find? unsafeEntry with
  | some name => .error ("Unsafe path in archive: " ++ name)
  | none => .ok ()

/-- A zip archive as the indexer sees it: its path, its entry names, and the
data files found after a (successful) extraction, each with the outcome of
the metadata extractor and optional companion information. -/
structure ZipArchive where
  path : String
  entries : List String
  dataFiles : List (String × Except String Meta × Option String)
deriving Repr

/-- Accumulated results of ArchiveAwareIndexer.index_path. -/
structure IndexerResults where
  indexed_files : List Meta
  errors : List (String × String)
  archives_processed : List (String × Nat)
deriving Repr, DecidableEq

/-- ArchiveAwareIndexer._index_file: a successful extraction appends the
metadata (with optional archive context and companion lists) to
indexed_files; an extractor exception is recorded in the error list and the
file is skipped. -/
def indexerIndexFile (filepath : String) (extraction : Except String Meta)
    (companions : Option String) (archiveContext : Option String)
    (r : IndexerResults) : IndexerResults :=
  match extraction with
  | .ok metadata =>
    let md1 := match archiveContext with
      | some ctx => metaSet metadata "archive_context" ctx
      | none => metadata
    let md2 := match companions with
      | some c => metaSet md1 "companions" c
      | none => md1
    { r with indexed_files := r.indexed_files ++ [md2] }
  | .error e => { r with errors := r.errors ++ [(filepath, e)] }

/-- ArchiveAwareIndexer._index_archive: run the traversal gate over the
whole entry list first; on rejection record one error for the archive
(wrapped in the RuntimeError message of extract_archive) and index nothing;
otherwise index every extracted data file with archive context and record
the archive as processed. -/
def indexerIndexArchive (ar : ZipArchive) (r : IndexerResults) : IndexerResults :=
  match extractZipGate ar.entries with
  | .error e =>
    { r with errors := r.errors
        ++ [(ar.path, "Failed to extract " ++ ar.path ++ ": " ++ e)] }
  | .ok _ =>
    let r1 := ar.dataFiles.foldl
      (fun acc df => indexerIndexFile df.1 df.2.1 df.2.2 (some ar.path) acc) r
    { r1 with archives_processed := r1.archives_processed
        ++ [(ar.path, ar.dataFiles.length)] }

/-- ArchiveAwareIndexer._index_directory: process the archives found in the
directory first (when extraction is enabled), then the standalone data
files. -/
def indexerIndexDirectory (archives : List ZipArchive)
    (dataFiles : List (String × Except String Meta × Option String))
    (extractArchives : Bool) : IndexerResults :=
  let r0 : IndexerResults := ⟨[], [], []⟩
  let r1 := if extractArchives then
    archives.foldl (fun acc a => indexerIndexArchive a acc) r0 else r0
  dataFiles.foldl (fun acc df => indexerIndexFile df.1 df.2.1 df.2.2 none acc) r1

/-- Claim C7: an archive containing an entry with an absolute path or a
".." traversal component is rejected as a whole: ArchiveAwareIndexer
records one error for the archive, adds nothing to the indexed files, and
does not count the archive as processed. -/
theorem archive_traversal_rejected (ar : ZipArchive) (r : IndexerResults)
    (h : ∃ name ∈ ar.entries, unsafeEntry name = true) :
    (indexerIndexArchive ar r).indexed_files = r.indexed_files
    ∧ (indexerIndexArchive ar r).archives_processed = r.archives_processed
    ∧ ∃ e, (indexerIndexArchive ar r).errors = r.errors ++ [(ar.path, e)] := by
  have hfind : (ar.entries.find? unsafeEntry).isSome := by
    rw [List.find?_isSome]
    obtain ⟨name, hmem, hu⟩ := h
    exact ⟨name, hmem, hu⟩
  obtain ⟨bad, hbad⟩ := Option.isSome_iff_exists.mp hfind
  rw [indexerIndexArchive, extractZipGate, hbad]
  exact ⟨rfl, rfl, _, rfl⟩

/-- Witness for C7: the archive bundle.zip containing ../evil.nc is rejected
with a single recorded error and zero indexed files. -/
theorem archive_traversal_rejected_witness :
    (indexerIndexArchive ⟨"bundle.zip", ["../evil.nc"], []⟩ ⟨[], [], []⟩).indexed_files = []
    ∧ (indexerIndexArchive ⟨"bundle.zip", ["../evil.nc"], []⟩ ⟨[], [], []⟩).archives_processed = []
    ∧ ∃ e, (indexerIndexArchive ⟨"bundle.zip", ["../evil.nc"], []⟩ ⟨[], [], []⟩).errors
        = [] ++ [("bundle.zip", e)] :=
  archive_traversal_rejected ⟨"bundle.zip", ["../evil.nc"], []⟩ ⟨[], [], []⟩
    ⟨"../evil.nc", by decide, by decide⟩

/-- The per-file loop of FAIRSearchEngine.index_directory: each metadata row
from the indexer is embedded (companion handling and searchable-text
construction feed the external embedding collaborator, abstracted by
embedOf) and added to the vector index; nothing in the loop checks for an
extractor-reported error key, and the only exception source in the model is
the length guard of add, which cannot fire for one-element lists.  Returns
the final state, indexed_count, error_count, and the error list. -/
def engineIndexLoop (embedOf : Meta → Vec) :
    List Meta → IndexState → Nat → Nat → List (String × String) →
      IndexState × Nat × Nat × List (String × String)
  | [], st, ic, ec, errs => (st, ic, ec, errs)
  | m :: rest, st, ic, ec, errs =>
    match VectorIndex.add st [embedOf m] [m] with
    | .ok st' => engineIndexLoop embedOf rest st' (ic + 1) ec errs
    | .error e => engineIndexLoop embedOf rest st ic (ec + 1)
        (errs ++ [((metaGet m "filepath").getD "unknown", e)])

/-- The summary dict FAIRSearchEngine.index_directory returns. -/
structure DirIndexOutcome where
  indexed : Nat
  errors : Nat
  archives_processed : Nat
deriving Repr, DecidableEq

/-- FAIRSearchEngine.index_directory: run the archive-aware indexer over the
directory, then embed and add every collected metadata row.  The `validate`
flag is accepted and never used, exactly as in the source. -/
def engineIndexDirectory (st : IndexState) (archives : List ZipArchive)
    (dataFiles : List (String × Except String Meta × Option String))
    (validate : Bool) (extractArchives : Bool) (embedOf : Meta → Vec) :
    DirIndexOutcome × IndexState × List (String × String) :=
  let results := indexerIndexDirectory archives dataFiles extractArchives
  let fin := engineIndexLoop embedOf results.indexed_files st 0 0 results.errors
  (⟨fin.2.1, fin.2.2.1, results.archives_processed.length⟩, fin.1, fin.2.2.2)

/-- Metadata the extractor returns for a healthy NetCDF file. -/
def metaOkFile : Meta :=
  [("filepath", "/d/ok.nc"), ("format", "NetCDF"), ("file_size", "2048")]

/-- Metadata the extractor returns for a corrupt NetCDF file: the format
parser failed, so the record carries an error key instead of raising. -/
def metaCorruptFile : Meta :=
  [("filepath", "/d/bad.nc"), ("format", "NetCDF"), ("file_size", "512"),
    ("error", "NetCDF: HDF error")]

/-- Claim C4 does not hold on the code: index_directory ignores its
validate flag entirely (first conjunct, an equality between the validating
and non-validating runs), and a directory with one valid and one corrupt
data file reports indexed = 2, errors = 0 while the corrupt record, error
key included, lands in the index as a searchable row. -/
theorem index_directory_counts_corrupt (st0 : IndexState)
    (archives : List ZipArchive)
    (dataFiles : List (String × Except String Meta × Option String))
    (ea : Bool) (embedOf : Meta → Vec) :
    engineIndexDirectory st0 archives dataFiles true ea embedOf
      = engineIndexDirectory st0 archives dataFiles false ea embedOf
    ∧ (engineIndexDirectory emptyIndex []
        [("/d/ok.nc", .ok metaOkFile, none), ("/d/bad.nc", .ok metaCorruptFile, none)]
        true true (fun _ => [1])).1
      = ⟨2, 0, 0⟩
    ∧ (engineIndexDirectory emptyIndex []
        [("/d/ok.nc", .ok metaOkFile, none), ("/d/bad.nc", .ok metaCorruptFile, none)]
        true true (fun _ => [1])).2.1.metadata_store
      = [metaOkFile, metaCorruptFile]
    ∧ metaGet metaCorruptFile "error" = some "NetCDF: HDF error" := by
  refine ⟨rfl, ?_, ?_, by decide⟩
  · decide
  · decide

/-!
Model of the file validator (src/lib/file_validator.py and the MAGIC_BYTES
table of src/lib/config.py).  A file on disk is abstracted to its path, its
existence, its byte size, whether it can be opened, and the header bytes
read for signature matching.
-/

/-- Validation settings from config.py. -/
def MIN_FILE_SIZE : Nat := 100

/-- A file as the validator observes it. -/
structure FsFile where
  path : String
  fileExists : Bool
  size : Nat
  readable : Bool
  header : List Nat
deriving Repr, DecidableEq

/-- The fixed magic-byte table of config.py, in dict insertion order; note
that the netcdf entry lists the HDF5 signature as its third signature
(NetCDF-4 files are HDF5 files). -/
def MAGIC_BYTES : List (String × List (List Nat)) :=
  [("netcdf", [[0x43, 0x44, 0x46, 0x01], [0x43, 0x44, 0x46, 0x02],
    [0x89, 0x48, 0x44, 0x46, 0x0D, 0x0A, 0x1A, 0x0A]]),
   ("hdf5", [[0x89, 0x48, 0x44, 0x46, 0x0D, 0x0A, 0x1A, 0x0A]]),
   ("grib", [[0x47, 0x52, 0x49, 0x42]]),
   ("html", [[0x3C, 0x21, 0x44, 0x4F, 0x43, 0x54, 0x59, 0x50, 0x45],
    [0x3C, 0x68, 0x74, 0x6D, 0x6C], [0x3C, 0x48, 0x54, 0x4D, 0x4C]]),
   ("xml", [[0x3C, 0x3F, 0x78, 0x6D, 0x6C]]),
   ("pdf", [[0x25, 0x50, 0x44, 0x46]]),
   ("zip", [[0x50, 0x4B, 0x03, 0x04], [0x50, 0x4B, 0x05, 0x06]]),
   ("tar", [[0x75, 0x73, 0x74, 0x61, 0x72, 0x00],
    [0x75, 0x73, 0x74, 0x61, 0x72, 0x20, 0x20, 0x00]]),
   ("gzip", [[0x1F, 0x8B]])]

/-- The last path component (pathlib Path.name). -/
def pathName (p : String) : String :=
  ⟨(p.data.reverse.takeWhile (fun c => c ≠ '/')).reverse⟩

/-- The segment of a character list starting at its last dot, if any. -/
def segFromLastDot : List Char → Option (List Char)
  | [] => none
  | c :: rest =>
    match segFromLastDot rest with
    | some s => some s
    | none => if c = '.' then some (c :: rest) else none

/-- pathlib Path.suffix on the final component: the extension from the last
dot, empty when the dot is the first character or the last character. -/
def pathSuffix (p : String) : String :=
  match (pathName p).data with
  | [] => ""
  | _ :: rest =>
    match segFromLastDot rest with
    | some s => if 2 ≤ s.length then ⟨s⟩ else ""
    | none => ""

/-- ASCII lowercasing of a string (str.lower on the extensions in play). -/
def lowerStr (s : String) : String := ⟨s.data.map Char.toLower⟩

/-- Expected type from the file extension. -/
def expectedTypeOf (ext : String) : Option String :=
  if ext = ".nc" ∨ ext = ".nc4" then some "netcdf"
  else if ext = ".hdf" ∨ ext = ".hdf5" ∨ ext = ".h5" then some "hdf5"
  else if ext = ".grb" ∨ ext = ".grb2" ∨ ext = ".grib" ∨ ext = ".grib2" then
    some "grib"
  else none

/-- The detected-type scan: walk the signature table in order and collect
each type one of whose signatures prefixes the header (the inner Python
loop breaks after the first matching signature of a type). -/
def detectedTypes (header : List Nat) : List String :=
  MAGIC_BYTES.filterMap (fun ts =>
    if ts.2.any (fun sig => sig.isPrefixOf header) then some ts.1 else none)

/-- The result dict of FileValidator.check_file_signature, without the
purely presentational size_formatted field. -/
structure ValidationResult where
  filepath : String
  fileExists : Bool
  size : Nat
  detected_type : Option String
  expected_type : Option String
  is_valid : Bool
  issues : List String
deriving Repr, DecidableEq

/-- FileValidator.check_file_signature: existence and minimum-size gates,
expected type from the lowercased extension, detected type as the first
match of the signature-table scan, then the validation chain (HTML and XML
always invalid, the NetCDF/HDF5 equivalence only for a netcdf expectation,
otherwise exact match, mismatch or missing-signature issues, and the
fallback to any detected type when the extension is unknown). -/
def checkFileSignature (f : FsFile) : ValidationResult :=
  if ¬ f.fileExists then
    ⟨f.path, false, 0, none, none, false, ["File does not exist"]⟩
  else if f.size < MIN_FILE_SIZE then
    ⟨f.path, true, f.size, none, none, false,
      ["File too small (" ++ toString f.size ++ " bytes)"]⟩
  else
    let expected := expectedTypeOf (lowerStr (pathSuffix f.path))
    if ¬ f.readable then
      ⟨f.path, true, f.size, none, expected, false, ["Cannot read file"]⟩
    else
      let detected := (detectedTypes f.header).head?
      if detected = some "html" then
        ⟨f.path, true, f.size, detected, expected, false,
          ["File is HTML (likely download error page)"]⟩
      else if detected = some "xml" then
        ⟨f.path, true, f.size, detected, expected, false,
          ["File is XML (check if error response)"]⟩
      else
        match expected, detected with
        | some e, some d =>
          if e = "netcdf" ∧ (d = "netcdf" ∨ d = "hdf5") then
            ⟨f.path, true, f.size, detected, expected, true, []⟩
          else if e = "hdf5" ∧ d = "hdf5" then
            ⟨f.path, true, f.size, detected, expected, true, []⟩
          else if e = "grib" ∧ d = "grib" then
            ⟨f.path, true, f.size, detected, expected, true, []⟩
          else
            ⟨f.path, true, f.size, detected, expected, false,
              ["Type mismatch: expected " ++ e ++ ", detected " ++ d]⟩
        | some e, none =>
          ⟨f.path, true, f.size, detected, expected, false,
            ["Cannot detect valid " ++ e ++ " signature"]⟩
        | none, _ =>
          ⟨f.path, true, f.size, detected, expected, detected.isSome,
            if detected.isSome then [] else ["Unknown file type"]⟩

/-- The HDF5 signature bytes. -/
def hdf5Sig : List Nat := [0x89, 0x48, 0x44, 0x46, 0x0D, 0x0A, 0x1A, 0x0A]

theorem detectedTypes_head_ne_hdf5 (header : List Nat) :
    (detectedTypes header).head? ≠ some "hdf5" := by
  intro h
  have hmem : "hdf5" ∈ detectedTypes header := by
    rcases hd : detectedTypes header with _ | ⟨x, xs⟩
    · rw [hd] at h; simp at h
    · rw [hd] at h
      simp only [List.head?_cons, Option.some.injEq] at h
      subst h
      exact List.mem_cons_self _ _
  rw [detectedTypes, List.mem_filterMap] at hmem
  obtain ⟨ts, hts, hcond⟩ := hmem
  have hc : ts.2.any (fun sig => sig.isPrefixOf header) = true := by
    by_cases hc : ts.2.any (fun sig => sig.isPrefixOf header) = true
    · exact hc
    · rw [if_neg hc] at hcond; exact absurd hcond (by simp)
  rw [if_pos hc] at hcond
  have hname : ts.1 = "hdf5" := by injection hcond
  simp only [MAGIC_BYTES, List.mem_cons, List.not_mem_nil, or_false] at hts
  have hts5 : ts = ("hdf5", [hdf5Sig]) := by
    rcases hts with h' | h' | h' | h' | h' | h' | h' | h' | h' <;>
      first
        | (exfalso; rw [h'] at hname; exact absurd hname (by decide))
        | (rw [h']; rfl)
  have hp : hdf5Sig.isPrefixOf header = true := by
    rw [hts5] at hc
    simpa using hc
  have hcnet : ([[0x43, 0x44, 0x46, 0x01], [0x43, 0x44, 0x46, 0x02],
      hdf5Sig] : List (List Nat)).any (fun sig => sig.isPrefixOf header) = true := by
    rw [List.any_eq_true]
    exact ⟨hdf5Sig, by simp, hp⟩
  have hhead : (detectedTypes header).head? = some "netcdf" := by
    rw [detectedTypes]
    rw [show MAGIC_BYTES = ("netcdf", [[0x43, 0x44, 0x46, 0x01],
      [0x43, 0x44, 0x46, 0x02], hdf5Sig]) :: MAGIC_BYTES.tail from rfl]
    rw [List.filterMap_cons]
    rw [if_pos hcnet]
    rfl
  rw [h] at hhead
  exact absurd hhead (by decide)

/-- Claim C3 does not hold on the code: because the netcdf signature list
also contains the HDF5 magic and the netcdf row precedes the hdf5 row in
MAGIC_BYTES, the scan can never answer hdf5 (first conjunct, for every
file), so an existing readable 200-byte file named sample.h5 whose content
starts with the HDF5 magic is detected as netcdf and rejected with a type
mismatch instead of being accepted. -/
theorem check_signature_h5_mismatch :
    (∀ f : FsFile, (checkFileSignature f).detected_type ≠ some "hdf5")
    ∧ checkFileSignature ⟨"/data/sample.h5", true, 200, true, hdf5Sig⟩
      = ⟨"/data/sample.h5", true, 200, some "netcdf", some "hdf5", false,
        ["Type mismatch: expected hdf5, detected netcdf"]⟩ := by
  refine ⟨?_, by decide⟩
  intro f
  have hne := detectedTypes_head_ne_hdf5 f.header
  simp only [checkFileSignature]
  repeat' split
  all_goals simp_all

/-!
Relevance classification (spec section 4.3).
-/

/-- Non-overlapping substring count, as Python str.count: scan left to
right, and after a hit continue after the matched occurrence.  The fuel
argument (instantiated with the length of the haystack, an upper bound on
the number of scan steps) keeps the recursion structural. -/
def countOccAux (pat : List Char) : Nat → List Char → Nat
  | 0, _ => 0
  | _ + 1, [] => 0
  | fuel + 1, c :: rest =>
    if pat.isPrefixOf (c :: rest) then
      1 + countOccAux pat fuel (rest.drop (pat.length - 1))
    else countOccAux pat fuel rest

/-- Python str.count: the empty pattern counts length + 1 gaps, otherwise
the non-overlapping scan. -/
def countOcc (pat hay : List Char) : Nat :=
  if pat = [] then hay.length + 1 else countOccAux pat hay.length hay

/-- Modelled from the spec: the mention count of section 4.3 of the
RelevanceClassifier (the repository's second, deterministic-first
DiscoveryAgent variant, which is not among the sources here): occurrences
of the data file's stem, case-insensitively, plus occurrences of its full
filename, summed over the candidate's text content. -/
def mentionCount (stem filename content : String) : Nat :=
  countOcc (lowerStr stem).data (lowerStr content).data
    + countOcc filename.data content.data

/-- The three relevance labels. -/
inductive RelevanceLabel
  | RELEVANT
  | NOT_RELEVANT
  | UNCERTAIN
deriving Repr, DecidableEq

/-- A classification outcome: label, confidence, one-line reason. -/
structure Judgment where
  label : RelevanceLabel
  confidence : ℚ
  reason : String
deriving Repr, DecidableEq

/-- The README filename patterns of config.py decide whether a candidate is
a README-pattern file (used by the ambiguous band); matching is by the
leading literal of the globs readme*, README*, ReadMe*. -/
def isReadmeName (name : String) : Bool :=
  ("readme".data.isPrefixOf name.data) || ("README".data.isPrefixOf name.data)
    || ("ReadMe".data.isPrefixOf name.data)

/-- Modelled from the spec: the deterministic-first relevance classifier of
section 4.3, whose implementation is not among the sources here.  The
judgment collaborator receives the data filename, the candidate filename,
the first 500 characters of content, and the mention count; it is consulted
only in the ambiguous band, and its failure degrades to UNCERTAIN with
confidence 0.3. -/
def classifyRelevance
    (judge : String → String → String → Nat → Option Judgment)
    (dataFilename dataStem candidateName content : String) : Judgment :=
  let mc := mentionCount dataStem dataFilename content
  if 3 ≤ mc then
    ⟨.RELEVANT, 95/100, "mentioned " ++ toString mc ++ " times"⟩
  else if mc = 0 ∧ ¬ isReadmeName candidateName then
    ⟨.NOT_RELEVANT, 9/10, "no mentions"⟩
  else
    match judge dataFilename candidateName ⟨content.data.take 500⟩ mc with
    | some j => j
    | none => ⟨.UNCERTAIN, 3/10, "judgment collaborator failed"⟩

/-- Claim C6 (spec-modelled): whenever the candidate text mentions the data
file stem plus filename at least 3 times, the classification is RELEVANT
with confidence 0.95 and a reason citing the count, identically for every
judgment collaborator: the fast path never consults it. -/
theorem classify_fast_path_relevant
    (judge : String → String → String → Nat → Option Judgment)
    (dataFilename dataStem candidateName content : String)
    (h : 3 ≤ mentionCount dataStem dataFilename content) :
    classifyRelevance judge dataFilename dataStem candidateName content
      = ⟨.RELEVANT, 95/100,
          "mentioned " ++ toString (mentionCount dataStem dataFilename content)
            ++ " times"⟩ := by
  rw [classifyRelevance]
  simp only [if_pos h]

/-- Witness for C6: a document containing the stem ocean_temp_2023 five
times is RELEVANT at confidence 0.95 even under a judge that always answers
NOT_RELEVANT. -/
theorem classify_fast_path_relevant_witness :
    classifyRelevance (fun _ _ _ _ => some ⟨.NOT_RELEVANT, 1/10, "never"⟩)
      "ocean_temp_2023.nc" "ocean_temp_2023" "README.md"
      "ocean_temp_2023 and ocean_temp_2023; ocean_temp_2023, ocean_temp_2023: ocean_temp_2023"
      = ⟨.RELEVANT, 95/100, "mentioned 5 times"⟩ := by
  have h := classify_fast_path_relevant
    (fun _ _ _ _ => some ⟨.NOT_RELEVANT, 1/10, "never"⟩)
    "ocean_temp_2023.nc" "ocean_temp_2023" "README.md"
    "ocean_temp_2023 and ocean_temp_2023; ocean_temp_2023, ocean_temp_2023: ocean_temp_2023"
    (by decide)
  rw [h]
  congr 1

/-!
Model of the companion document finder (src/lib/companion_finder.py and the
pattern lists of src/lib/config.py).  Paths are lists of components; a
directory is observed through the list of entry names it contains; glob is
a matcher for the star-only patterns the configuration uses.
-/

/-- Star-only glob matching, fueled to keep the recursion structural (one
unit of fuel is spent per pattern or text character consumed, so pattern
length plus text length suffices). -/
def globMatchAux : Nat → List Char → List Char → Bool
  | 0, _, _ => false
  | _ + 1, [], s => s.isEmpty
  | fuel + 1, c :: ps, s =>
    if c = '*' then
      globMatchAux fuel ps s ||
        (match s with
         | [] => false
         | _ :: s' => globMatchAux fuel (c :: ps) s')
    else
      match s with
      | [] => false
      | c' :: s' => c = c' && globMatchAux fuel ps s'

/-- fnmatch for the star-only patterns of config.py. -/
def globMatch (pat name : List Char) : Bool :=
  globMatchAux (pat.length + name.length + 1) pat name

/-- Unfolding equation for one matching step on a nonempty pattern. -/
theorem globMatchAux_cons (fuel : Nat) (c : Char) (ps s : List Char) :
    globMatchAux (fuel + 1) (c :: ps) s =
      if c = '*' then
        globMatchAux fuel ps s ||
          (match s with
           | [] => false
           | _ :: s' => globMatchAux fuel (c :: ps) s')
      else
        match s with
        | [] => false
        | c' :: s' => c = c' && globMatchAux fuel ps s' := rfl

/-- A star-free pattern matches only itself. -/
theorem globMatchAux_starfree :
    ∀ (fuel : Nat) (r s : List Char), (∀ ch ∈ r, ch ≠ '*') →
      globMatchAux fuel r s = true → s = r := by
  intro fuel
  induction fuel with
  | zero => intro r s _ hg; simp [globMatchAux] at hg
  | succ fuel ih =>
    intro r s hr hg
    match r, s with
    | [], s =>
      simp only [globMatchAux, List.isEmpty_iff] at hg
      exact hg
    | c :: r', s =>
      have hc : c ≠ '*' := hr c (List.mem_cons_self _ _)
      rw [globMatchAux_cons, if_neg hc] at hg
      match s with
      | [] => simp at hg
      | c' :: s' =>
        simp only [Bool.and_eq_true, decide_eq_true_eq] at hg
        obtain ⟨hcc, hg'⟩ := hg
        have := ih r' s' (fun ch hch => hr ch (List.mem_cons_of_mem _ hch)) hg'
        rw [this, hcc]

/-- A pattern ending in a star-free tail only matches texts ending in that
tail: this pins the extension of every related-data glob hit. -/
theorem globMatchAux_suffix :
    ∀ (fuel : Nat) (p r s : List Char), (∀ ch ∈ r, ch ≠ '*') →
      globMatchAux fuel (p ++ r) s = true → r <:+ s := by
  intro fuel
  induction fuel with
  | zero => intro p r s _ hg; simp [globMatchAux] at hg
  | succ fuel ih =>
    intro p r s hr hg
    match p with
    | [] =>
      rw [List.nil_append] at hg
      have hs := globMatchAux_starfree (fuel + 1) r s hr hg
      exact hs ▸ List.suffix_refl r
    | c :: p' =>
      rw [List.cons_append] at hg
      by_cases hc : c = '*'
      · rw [globMatchAux_cons, if_pos hc] at hg
        rcases Bool.or_eq_true_iff.mp hg with h | h
        · exact ih p' r s hr h
        · match s with
          | [] => simp at h
          | c' :: s' =>
            have := ih (c :: p') r s' hr (by exact h)
            exact this.trans (List.suffix_cons c' s')
      · rw [globMatchAux_cons, if_neg hc] at hg
        match s with
        | [] => simp at hg
        | c' :: s' =>
          simp only [Bool.and_eq_true, decide_eq_true_eq] at hg
          exact (ih p' r s' hr hg.2).trans (List.suffix_cons c' s')

/-- globMatch inherits the suffix law. -/
theorem globMatch_suffix (p r s : List Char) (hr : ∀ ch ∈ r, ch ≠ '*')
    (hg : globMatch (p ++ r) s = true) : r <:+ s :=
  globMatchAux_suffix _ p r s hr hg

/-- config.py README_PATTERNS. -/
def README_PATTERNS : List String := ["readme*", "README*", "ReadMe*"]

/-- config.py CITATION_PATTERNS. -/
def CITATION_PATTERNS : List String :=
  ["citation*", "CITATION*", "references*", "doi*", "paper*"]

/-- config.py DOCUMENTATION_PATTERNS. -/
def DOCUMENTATION_PATTERNS : List String :=
  ["*documentation*", "*manual*", "*guide*", "data_dictionary*"]

/-- config.py SCRIPT_EXTENSIONS (set literal, in source order). -/
def SCRIPT_EXTENSIONS : List String := [".py", ".r", ".m", ".ipynb", ".sh", ".bash"]

/-- config.py SCIENTIFIC_DATA_EXTENSIONS (set literal, in source order). -/
def SCIENTIFIC_DATA_EXTENSIONS : List String :=
  [".nc", ".nc4", ".hdf", ".hdf5", ".h5", ".grb", ".grb2", ".grib", ".grib2"]

/-- The project markers of find_companions that veto parent-directory
search. -/
def PROJECT_MARKERS : List String :=
  ["setup.py", "setup.sh", "requirements.txt", ".git", "lib", "src"]

/-- The system-script denylist of CompanionDocFinder._is_system_file. -/
def SYSTEM_SCRIPTS : List String :=
  ["setup.sh", "setup.py", "install.sh", "run.sh", "run_jupyterlab.sh",
    "test.py", "tests.py", "__init__.py", "conftest.py"]

/-- The excluded directory segments of _is_system_file. -/
def EXCLUDED_DIRS : List String :=
  ["lib", "src", "tests", "docs", ".git", "__pycache__"]

/-- Everything the finder observes about the filesystem: the data file path
(as components), the entries of its directory, and the entries of the
grandparent directory consulted by the optional parent search. -/
structure FinderWorld where
  dataPath : List String
  dirEntries : List String
  parentEntries : List String
deriving Repr, DecidableEq

/-- Path.glob over one directory listing: the entries matching the pattern,
as full paths under the directory. -/
def globDir (dirParts : List String) (entries : List String) (pat : String) :
    List (List String) :=
  (entries.filter (fun n => globMatch pat.data n.data)).map
    (fun n => dirParts ++ [n])

/-- _is_likely_companion: filepath.relative_to(data_dir) succeeds exactly
when the data directory is a prefix of the path. -/
def isLikelyCompanion (p dataDir : List String) : Bool := dataDir.isPrefixOf p

/-- The numbered-notebook test of _is_system_file: the lowercased name ends
in .ipynb and starts with two digits and an underscore. -/
def isNumberedNotebookName (name : String) : Bool :=
  let n := lowerStr name
  (".ipynb".data.isSuffixOf n.data) &&
    (match n.data with
     | c1 :: c2 :: c3 :: _ => c1.isDigit && c2.isDigit && (c3 == '_')
     | _ => false)

/-- CompanionDocFinder._is_system_file: numbered notebooks, the explicit
system-script denylist (on the lowercased name), and paths with an excluded
directory segment anywhere in their parts. -/
def isSystemFile (p : List String) : Bool :=
  isNumberedNotebookName (p.getLastD "")
    || SYSTEM_SCRIPTS.contains (lowerStr (p.getLastD ""))
    || p.any (fun part => EXCLUDED_DIRS.contains part)

/-- pathlib Path.stem: the final component without its suffix. -/
def stemOf (name : String) : String :=
  ⟨name.data.take (name.data.length - (pathSuffix name).data.length)⟩

/-- Does a character list match the regex fragment v?\d+\.?\d* entirely
(the version suffix of _find_related_files)? -/
def isVersionCore (cs : List Char) : Bool :=
  let cs2 := match cs with
    | 'v' :: rest => rest
    | _ => cs
  let ds := cs2.takeWhile Char.isDigit
  let rest := cs2.drop ds.length
  (!ds.isEmpty) && (rest.isEmpty ||
    ((rest.headD ' ' == '.') && rest.tail.all Char.isDigit))

/-- Does a character list match \d{8} entirely? -/
def isDate8 (cs : List Char) : Bool := cs.length = 8 && cs.all Char.isDigit

/-- Does a character list match \d{4}-\d{2}-\d{2} entirely? -/
def isDateDashed (cs : List Char) : Bool :=
  match cs with
  | [a, b, c, d, '-', e, f, '-', g, h] =>
    [a, b, c, d, e, f, g, h].all Char.isDigit
  | _ => false

/-- One re.sub of the anchored pattern [_-]X$ with empty replacement: drop
everything from the leftmost separator whose remainder matches the core. -/
def stripSub (core : List Char → Bool) : List Char → List Char
  | [] => []
  | c :: rest =>
    if (c == '_' || c == '-') && core rest then []
    else c :: stripSub core rest

/-- The base name of _find_related_files: the stem with trailing version,
eight-digit date, and dashed date suffixes removed in source order. -/
def relatedBase (stem : String) : String :=
  ⟨stripSub isDateDashed (stripSub isDate8 (stripSub isVersionCore stem.data))⟩

/-- _find_related_files: sibling files whose names share the stripped base
name and carry a scientific data extension. -/
def findRelatedFiles (w : FinderWorld) : List (List String) :=
  let base := relatedBase (stemOf (w.dataPath.getLastD ""))
  SCIENTIFIC_DATA_EXTENSIONS.flatMap (fun ext =>
    globDir w.dataPath.dropLast w.dirEntries (base ++ "*" ++ ext))

/-- The five companion lists find_companions returns. -/
structure Companions where
  readmes : List (List String)
  citations : List (List String)
  documentation : List (List String)
  scripts : List (List String)
  related_data : List (List String)
deriving Repr, DecidableEq

/-- The closing cleanup of find_companions: set deduplication and removal
of the data file itself. -/
def cleanupList (dataPath : List String) (l : List (List String)) :
    List (List String) :=
  l.dedup.filter (fun f => f ≠ dataPath)

/-- The search directories of find_companions: the data directory always,
plus the grandparent directory when parent search is enabled and no project
marker vetoes it. -/
def finderDirs (w : FinderWorld) (searchParent : Bool) :
    List (List String × List String) :=
  (w.dataPath.dropLast, w.dirEntries) ::
    (if searchParent &&
        !(PROJECT_MARKERS.any (fun m => w.parentEntries.contains m)) then
      [(w.dataPath.dropLast.dropLast, w.parentEntries)]
    else [])

/-- The pattern-driven collection loops of find_companions (readmes,
citations, documentation): glob each pattern over each search directory and
keep the likely companions. -/
def pickPatterns (dataDir : List String)
    (dirs : List (List String × List String)) (pats : List String) :
    List (List String) :=
  dirs.flatMap (fun d => pats.flatMap (fun pat =>
    (globDir d.1 d.2 pat).filter (fun f => isLikelyCompanion f dataDir)))

/-- The script collection loop of find_companions: glob *ext for every
script extension and keep likely companions that are not system files. -/
def pickScripts (dataDir : List String)
    (dirs : List (List String × List String)) : List (List String) :=
  dirs.flatMap (fun d => SCRIPT_EXTENSIONS.flatMap (fun ext =>
    (globDir d.1 d.2 ("*" ++ ext)).filter
      (fun f => isLikelyCompanion f dataDir && !isSystemFile f)))

/-- CompanionDocFinder.find_companions: glob the pattern lists over the
search directories, filter script hits through the system-file check,
collect related data files when sibling search is on, and clean every list
up (set deduplication, data file itself removed). -/
def findCompanions (w : FinderWorld) (searchParent searchSiblings : Bool) :
    Companions :=
  let dataDir := w.dataPath.dropLast
  let dirs := finderDirs w searchParent
  let related := if searchSiblings then findRelatedFiles w else []
  ⟨cleanupList w.dataPath (pickPatterns dataDir dirs README_PATTERNS),
   cleanupList w.dataPath (pickPatterns dataDir dirs CITATION_PATTERNS),
   cleanupList w.dataPath (pickPatterns dataDir dirs DOCUMENTATION_PATTERNS),
   cleanupList w.dataPath (pickScripts dataDir dirs),
   cleanupList w.dataPath related⟩

/-- Unpacking membership in a directory glob. -/
theorem globDir_mem {dirParts entries : List String} {pat : String}
    {p : List String} (h : p ∈ globDir dirParts entries pat) :
    ∃ n ∈ entries, globMatch pat.data n.data = true ∧ p = dirParts ++ [n] := by
  rw [globDir] at h
  obtain ⟨n, hn, hp⟩ := List.mem_map.mp h
  exact ⟨n, (List.mem_filter.mp hn).1, (List.mem_filter.mp hn).2, hp.symm⟩

/-- The name of a glob hit is its matched entry. -/
theorem getLastD_append_singleton (l : List String) (n : String) :
    (l ++ [n]).getLastD "" = n := by
  simp [List.getLastD_eq_getLast?]

/-- Every path in a cleaned pattern pick has a name matching one of the
patterns. -/
theorem pickPatterns_name {w : FinderWorld} {dirs : List (List String × List String)}
    {dataDir : List String} {pats : List String} {p : List String}
    (h : p ∈ cleanupList w.dataPath (pickPatterns dataDir dirs pats)) :
    ∃ pat ∈ pats, globMatch pat.data (p.getLastD "").data = true := by
  have h1 : p ∈ pickPatterns dataDir dirs pats :=
    List.mem_dedup.mp (List.mem_filter.mp h).1
  rw [pickPatterns] at h1
  obtain ⟨d, _, h2⟩ := List.mem_flatMap.mp h1
  obtain ⟨pat, hpat, h3⟩ := List.mem_flatMap.mp h2
  obtain ⟨n, _, hg, hp⟩ := globDir_mem (List.mem_filter.mp h3).1
  refine ⟨pat, hpat, ?_⟩
  rw [hp, getLastD_append_singleton]
  exact hg

/-- Every path in the cleaned script pick has a name matching a script
extension glob and fails the system-file check. -/
theorem pickScripts_name {w : FinderWorld} {dirs : List (List String × List String)}
    {dataDir : List String} {p : List String}
    (h : p ∈ cleanupList w.dataPath (pickScripts dataDir dirs)) :
    isSystemFile p = false := by
  have h1 : p ∈ pickScripts dataDir dirs :=
    List.mem_dedup.mp (List.mem_filter.mp h).1
  rw [pickScripts] at h1
  obtain ⟨d, _, h2⟩ := List.mem_flatMap.mp h1
  obtain ⟨ext, _, h3⟩ := List.mem_flatMap.mp h2
  have := (List.mem_filter.mp h3).2
  simp only [Bool.and_eq_true, Bool.not_eq_true'] at this
  exact this.2

/-- Every path in the cleaned related-data list has a name ending in one of
the scientific data extensions. -/
theorem relatedData_name {w : FinderWorld} {p : List String}
    (h : p ∈ cleanupList w.dataPath (findRelatedFiles w)) :
    ∃ ext ∈ SCIENTIFIC_DATA_EXTENSIONS, ext.data <:+ (p.getLastD "").data := by
  have h1 : p ∈ findRelatedFiles w :=
    List.mem_dedup.mp (List.mem_filter.mp h).1
  rw [findRelatedFiles] at h1
  obtain ⟨ext, hext, h2⟩ := List.mem_flatMap.mp h1
  obtain ⟨n, _, hg, hp⟩ := globDir_mem h2
  refine ⟨ext, hext, ?_⟩
  rw [hp, getLastD_append_singleton]
  have hdata : ((relatedBase (stemOf (w.dataPath.getLastD "")) ++ "*" ++ ext)).data
      = ((relatedBase (stemOf (w.dataPath.getLastD ""))).data ++ ['*']) ++ ext.data := by
    show ((relatedBase (stemOf (w.dataPath.getLastD ""))).data ++ "*".data) ++ ext.data
      = ((relatedBase (stemOf (w.dataPath.getLastD ""))).data ++ ['*']) ++ ext.data
    rfl
  rw [hdata] at hg
  refine globMatch_suffix _ _ _ ?_ hg
  intro ch hch
  have hmem : ext = ".nc" ∨ ext = ".nc4" ∨ ext = ".hdf" ∨ ext = ".hdf5"
      ∨ ext = ".h5" ∨ ext = ".grb" ∨ ext = ".grb2" ∨ ext = ".grib"
      ∨ ext = ".grib2" := by
    simpa [SCIENTIFIC_DATA_EXTENSIONS] using hext
  rcases hmem with h' | h' | h' | h' | h' | h' | h' | h' | h' <;>
    (subst h'; revert ch hch; decide)

/-- Counterexample to claim C8 as stated: the numbered notebook
00_manual.ipynb matches the documentation glob *manual*, and the
documentation list is not filtered through the system-file check, so
find_companions returns it even though it is a numbered notebook. -/
theorem find_companions_notebook_counterexample :
    ["d", "00_manual.ipynb"] ∈
      (findCompanions ⟨["d", "x.nc"], ["00_manual.ipynb"], []⟩ false true).documentation
    ∧ isNumberedNotebookName "00_manual.ipynb" = true := by
  decide

/-- Claim C8 as amended: a file named setup.py is never present in any of
the five lists find_companions returns, and a numbered notebook is never
present in the scripts list; a numbered notebook whose name matches a
readme, citation or documentation glob pattern can still appear in those
lists, which bypass the system-file check. -/
theorem find_companions_excludes_setup_py (w : FinderWorld) (sp ss : Bool) :
    (∀ p ∈ (findCompanions w sp ss).readmes ++ (findCompanions w sp ss).citations
        ++ (findCompanions w sp ss).documentation
        ++ (findCompanions w sp ss).scripts
        ++ (findCompanions w sp ss).related_data,
      p.getLastD "" ≠ "setup.py")
    ∧ ∀ p ∈ (findCompanions w sp ss).scripts,
        isNumberedNotebookName (p.getLastD "") = false := by
  have hscr : ∀ p ∈ (findCompanions w sp ss).scripts, isSystemFile p = false := by
    intro p hp
    exact pickScripts_name (w := w) hp
  constructor
  · intro p hp
    intro hname
    rcases List.mem_append.mp hp with hp | hp5
    rcases List.mem_append.mp hp with hp | hp4
    rcases List.mem_append.mp hp with hp | hp3
    rcases List.mem_append.mp hp with hp1 | hp2
    · obtain ⟨pat, hpat, hg⟩ := pickPatterns_name (w := w) hp1
      rw [hname] at hg
      have : pat = "readme*" ∨ pat = "README*" ∨ pat = "ReadMe*" := by
        simpa [README_PATTERNS] using hpat
      rcases this with h' | h' | h' <;> (subst h'; exact absurd hg (by decide))
    · obtain ⟨pat, hpat, hg⟩ := pickPatterns_name (w := w) hp2
      rw [hname] at hg
      have : pat = "citation*" ∨ pat = "CITATION*" ∨ pat = "references*"
          ∨ pat = "doi*" ∨ pat = "paper*" := by
        simpa [CITATION_PATTERNS] using hpat
      rcases this with h' | h' | h' | h' | h' <;>
        (subst h'; exact absurd hg (by decide))
    · obtain ⟨pat, hpat, hg⟩ := pickPatterns_name (w := w) hp3
      rw [hname] at hg
      have : pat = "*documentation*" ∨ pat = "*manual*" ∨ pat = "*guide*"
          ∨ pat = "data_dictionary*" := by
        simpa [DOCUMENTATION_PATTERNS] using hpat
      rcases this with h' | h' | h' | h' <;>
        (subst h'; exact absurd hg (by decide))
    · have hsf := hscr p hp4
      rw [isSystemFile, hname] at hsf
      simp only [Bool.or_eq_false_iff] at hsf
      exact absurd hsf.1.2 (by decide)
    · rcases Bool.eq_false_or_eq_true ss with hss | hss
      · rw [hss] at hp5
        obtain ⟨ext, hext, hsuf⟩ := relatedData_name (w := w) (by exact hp5)
        rw [hname] at hsuf
        have hmem : ext = ".nc" ∨ ext = ".nc4" ∨ ext = ".hdf" ∨ ext = ".hdf5"
            ∨ ext = ".h5" ∨ ext = ".grb" ∨ ext = ".grb2" ∨ ext = ".grib"
            ∨ ext = ".grib2" := by
          simpa [SCIENTIFIC_DATA_EXTENSIONS] using hext
        rcases hmem with h' | h' | h' | h' | h' | h' | h' | h' | h' <;>
          (subst h'; exact absurd hsuf (by decide))
      · rw [hss] at hp5
        exact absurd hp5 (List.not_mem_nil p)
  · intro p hp
    have hsf := hscr p hp
    rw [isSystemFile] at hsf
    simp only [Bool.or_eq_false_iff] at hsf
    exact hsf.1.1

/-- Witness for the amended C8 on a concrete directory: the returned readme
is not setup.py and the returned script is not a numbered notebook. -/
theorem find_companions_excludes_setup_py_witness :
    (["d", "readme.txt"] : List String).getLastD "" ≠ "setup.py"
    ∧ isNumberedNotebookName ((["d", "analysis.py"] : List String).getLastD "")
        = false := by
  have h := find_companions_excludes_setup_py
    ⟨["d", "x.nc"], ["readme.txt", "analysis.py"], []⟩ false true
  exact ⟨h.1 ["d", "readme.txt"] (by decide), h.2 ["d", "analysis.py"] (by decide)⟩
